import Mathlib

/-!
Shallow embedding of the `streambuf` crate: `StreamBufReader` (sequential
decoder over an immutable byte span, `src/stream_buf_reader.rs`) and
`StreamBufWriter` (sequential encoder over a mutable byte span,
`src/stream_buf_writer.rs`).

Modelling conventions:
* A byte span is a `List Nat` of byte values; the cursor is `pos : Nat`.
* Rust `usize` arithmetic is `Nat` with an explicit `% USIZE`
  (`USIZE = 2 ^ 64`, 64-bit word) wherever the source performs an addition
  that can overflow (release-profile wrapping semantics); `as isize`
  reinterpretation is `toIsize`.
* Rust indexing `buf[i]` that sits behind a bounds guard in the source is
  modelled with `List.getD` / `List.set` (the guard makes the access
  in-bounds in every reachable state); the unguarded absolute accessors
  `at` / `Index` / `IndexMut`, whose out-of-range use panics in Rust, are
  modelled as `Option`-returning functions where `none` models the trap.
* `f32` values are modelled by their IEEE-754 bit patterns (`Nat < 2 ^ 32`):
  in the source `read_f32` is `f32::from_bits` of `read_u32` and
  `write_f32` writes `value.to_le_bytes()` (the little-endian bytes of
  `value.to_bits()`); `from_bits`/`to_bits` are mutually inverse and
  `f32::from_bits 0 = 0.0`, so the bit-pattern view is exact.
* Rust `&str` values are modelled by their UTF-8 byte lists (`src.len()`
  is the byte length of the string).
-/

/-- The modulus of the 64-bit `usize` type. -/
def USIZE : Nat := 2 ^ 64

/-- Rust `n as isize` for a `usize` value `n`: two's-complement reinterpretation. -/
def toIsize (n : Nat) : Int :=
  if n % USIZE < 2 ^ 63 then ((n % USIZE : Nat) : Int)
  else ((n % USIZE : Nat) : Int) - (USIZE : Int)

/-- Little-endian bytes of a `u16` (`u16::to_le_bytes`). -/
def u16_to_le_bytes (v : Nat) : List Nat :=
  [v % 2 ^ 8, v / 2 ^ 8 % 2 ^ 8]

/-- Big-endian bytes of a `u16` (`u16::to_be_bytes`). -/
def u16_to_be_bytes (v : Nat) : List Nat :=
  [v / 2 ^ 8 % 2 ^ 8, v % 2 ^ 8]

/-- Little-endian bytes of a `u32` (`u32::to_le_bytes`). -/
def u32_to_le_bytes (v : Nat) : List Nat :=
  [v % 2 ^ 8, v / 2 ^ 8 % 2 ^ 8, v / 2 ^ 16 % 2 ^ 8, v / 2 ^ 24 % 2 ^ 8]

/-- Big-endian bytes of a `u32` (`u32::to_be_bytes`). -/
def u32_to_be_bytes (v : Nat) : List Nat :=
  [v / 2 ^ 24 % 2 ^ 8, v / 2 ^ 16 % 2 ^ 8, v / 2 ^ 8 % 2 ^ 8, v % 2 ^ 8]

/-- Rust `u16::from_le_bytes [b0, b1]`. -/
def u16_from_le_bytes (b0 b1 : Nat) : Nat := b0 + b1 * 2 ^ 8

/-- Rust `u16::from_be_bytes [b0, b1]`. -/
def u16_from_be_bytes (b0 b1 : Nat) : Nat := b0 * 2 ^ 8 + b1

/-- Rust `u32::from_le_bytes [b0, b1, b2, b3]`. -/
def u32_from_le_bytes (b0 b1 b2 b3 : Nat) : Nat :=
  b0 + b1 * 2 ^ 8 + b2 * 2 ^ 16 + b3 * 2 ^ 24

/-- Rust `u32::from_be_bytes [b0, b1, b2, b3]`. -/
def u32_from_be_bytes (b0 b1 b2 b3 : Nat) : Nat :=
  b0 * 2 ^ 24 + b1 * 2 ^ 16 + b2 * 2 ^ 8 + b3

/-- Overwrite `b[i]`, `b[i+1]`, ... with the elements of `xs`
(the effect of `b[i .. i + xs.len()].copy_from_slice(xs)` / `.fill`). -/
def setBytes : List Nat → Nat → List Nat → List Nat
  | b, _, [] => b
  | b, i, x :: xs => setBytes (b.set i x) (i + 1) xs

/-- Rust `StreamBufReader`: simple deserializer, a cursor `pos` over an
immutable byte span `buf` (`src/stream_buf_reader.rs`). -/
structure StreamBufReader where
  pos : Nat
  buf : List Nat
  deriving DecidableEq, Repr

/-- Rust `StreamBufWriter`: simple serializer, a cursor `pos` over a mutable
byte span `buf` (`src/stream_buf_writer.rs`). -/
structure StreamBufWriter where
  pos : Nat
  buf : List Nat
  deriving DecidableEq, Repr

/-- Rust `StreamBufReader::new`. -/
def StreamBufReader.new (buf : List Nat) : StreamBufReader := ⟨0, buf⟩

/-- Rust `StreamBufReader::get_data`. -/
def StreamBufReader.get_data (s : StreamBufReader) : List Nat := s.buf

/-- Rust `StreamBufReader::get_data_slice` (`&self.buf[..self.pos]`). -/
def StreamBufReader.get_data_slice (s : StreamBufReader) : List Nat :=
  s.buf.take s.pos

/-- Rust `StreamBufReader::reset`. -/
def StreamBufReader.reset (s : StreamBufReader) : StreamBufReader :=
  { s with pos := 0 }

/-- Rust `StreamBufReader::is_empty` (`self.pos == 0`). -/
def StreamBufReader.is_empty (s : StreamBufReader) : Bool := s.pos == 0

/-- Rust `StreamBufReader::is_full` (`self.pos >= self.buf.len()`). -/
def StreamBufReader.is_full (s : StreamBufReader) : Bool :=
  decide (s.buf.length ≤ s.pos)

/-- Rust `StreamBufReader::bytes_remaining`: computed through `isize`
subtraction in the source, clamped at zero. -/
def StreamBufReader.bytes_remaining (s : StreamBufReader) : Nat :=
  if toIsize s.buf.length - toIsize s.pos ≤ 0 then 0
  else (toIsize s.buf.length - toIsize s.pos).toNat

/-- Rust `StreamBufReader::is_remaining` (`self.pos + size > self.buf.len()`
is false; the `usize` addition wraps). -/
def StreamBufReader.is_remaining (s : StreamBufReader) (size : Nat) : Bool :=
  if s.buf.length < (s.pos + size) % USIZE then false else true

/-- Rust `StreamBufReader::bytes_read` (= `pos`). -/
def StreamBufReader.bytes_read (s : StreamBufReader) : Nat := s.pos

/-- Rust `StreamBufReader::advance` (`self.pos = (self.pos + n).min(self.buf.len())`;
the `usize` addition wraps). -/
def StreamBufReader.advance (s : StreamBufReader) (n : Nat) : StreamBufReader :=
  { s with pos := min ((s.pos + n) % USIZE) s.buf.length }

/-- Rust `StreamBufReader::get_ref` (`&self.buf[..self.pos]`). -/
def StreamBufReader.get_ref (s : StreamBufReader) : List Nat :=
  s.buf.take s.pos

/-- Rust `StreamBufReader::at` (`self.buf[index]`): unguarded absolute indexing;
`none` models the Rust panic on `index >= buf.len()`. -/
def StreamBufReader.atIdx (s : StreamBufReader) (index : Nat) : Option Nat :=
  s.buf[index]?

/-- Rust `Index<usize> for StreamBufReader` (`&self.buf[index]`): same absolute
access as `at`; `none` models the Rust panic. -/
def StreamBufReader.index (s : StreamBufReader) (index : Nat) : Option Nat :=
  s.buf[index]?

/-- Rust `StreamBufReader::read_u8`. -/
def StreamBufReader.read_u8 (s : StreamBufReader) : Nat × StreamBufReader :=
  if !(s.is_remaining 1) then (0, s)
  else
    let pos := s.pos
    let s' := s.advance 1
    (s.buf.getD pos 0, s')

/-- Rust `StreamBufReader::read_u16` (little-endian). -/
def StreamBufReader.read_u16 (s : StreamBufReader) : Nat × StreamBufReader :=
  if !(s.is_remaining 2) then (0, s)
  else
    let pos := s.pos
    let s' := s.advance 2
    (u16_from_le_bytes (s.buf.getD pos 0) (s.buf.getD (pos + 1) 0), s')

/-- Rust `StreamBufReader::read_u32` (little-endian). -/
def StreamBufReader.read_u32 (s : StreamBufReader) : Nat × StreamBufReader :=
  if !(s.is_remaining 4) then (0, s)
  else
    let pos := s.pos
    let s' := s.advance 4
    (u32_from_le_bytes (s.buf.getD pos 0) (s.buf.getD (pos + 1) 0)
      (s.buf.getD (pos + 2) 0) (s.buf.getD (pos + 3) 0), s')

/-- Rust `StreamBufReader::read_u16_big_endian`. -/
def StreamBufReader.read_u16_big_endian (s : StreamBufReader) :
    Nat × StreamBufReader :=
  if !(s.is_remaining 2) then (0, s)
  else
    let pos := s.pos
    let s' := s.advance 2
    (u16_from_be_bytes (s.buf.getD pos 0) (s.buf.getD (pos + 1) 0), s')

/-- Rust `StreamBufReader::read_u32_big_endian`. -/
def StreamBufReader.read_u32_big_endian (s : StreamBufReader) :
    Nat × StreamBufReader :=
  if !(s.is_remaining 4) then (0, s)
  else
    let pos := s.pos
    let s' := s.advance 4
    (u32_from_be_bytes (s.buf.getD pos 0) (s.buf.getD (pos + 1) 0)
      (s.buf.getD (pos + 2) 0) (s.buf.getD (pos + 3) 0), s')

/-- Rust `StreamBufReader::read_f32`: returns the IEEE-754 bit pattern of the
decoded float (`f32::from_bits` of `read_u32`; the sentinel `0.0` has bit
pattern `0`). -/
def StreamBufReader.read_f32 (s : StreamBufReader) : Nat × StreamBufReader :=
  if !(s.is_remaining 4) then (0, s)
  else s.read_u32

/-- Rust `StreamBufReader::read` into a destination slice: returns
(bytes copied, new destination contents, new reader state).
On success the source does `dst.copy_from_slice(..)` and `self.pos += read_size`. -/
def StreamBufReader.read (s : StreamBufReader) (dst : List Nat) :
    Nat × List Nat × StreamBufReader :=
  let read_size := dst.length
  if !(s.is_remaining read_size) then (0, dst, s)
  else (read_size, (s.buf.drop s.pos).take read_size,
    { s with pos := (s.pos + read_size) % USIZE })

/-- Rust `StreamBufWriter::new`. -/
def StreamBufWriter.new (buf : List Nat) : StreamBufWriter := ⟨0, buf⟩

/-- Rust `StreamBufWriter::get_data`. -/
def StreamBufWriter.get_data (s : StreamBufWriter) : List Nat := s.buf

/-- Rust `StreamBufWriter::get_data_slice` (`&self.buf[..self.pos]`). -/
def StreamBufWriter.get_data_slice (s : StreamBufWriter) : List Nat :=
  s.buf.take s.pos

/-- Rust `StreamBufWriter::pos` accessor is the structure field; `reset`. -/
def StreamBufWriter.reset (s : StreamBufWriter) : StreamBufWriter :=
  { s with pos := 0 }

/-- Rust `StreamBufWriter::is_empty`. -/
def StreamBufWriter.is_empty (s : StreamBufWriter) : Bool := s.pos == 0

/-- Rust `StreamBufWriter::is_full`. -/
def StreamBufWriter.is_full (s : StreamBufWriter) : Bool :=
  decide (s.buf.length ≤ s.pos)

/-- Rust `StreamBufWriter::bytes_remaining` (via `isize`, clamped at zero). -/
def StreamBufWriter.bytes_remaining (s : StreamBufWriter) : Nat :=
  if toIsize s.buf.length - toIsize s.pos ≤ 0 then 0
  else (toIsize s.buf.length - toIsize s.pos).toNat

/-- Rust `StreamBufWriter::is_available` (`self.pos + size > self.buf.len()`
is false; the `usize` addition wraps). -/
def StreamBufWriter.is_available (s : StreamBufWriter) (size : Nat) : Bool :=
  if s.buf.length < (s.pos + size) % USIZE then false else true

/-- Rust `StreamBufWriter::bytes_written` (= `pos`). -/
def StreamBufWriter.bytes_written (s : StreamBufWriter) : Nat := s.pos

/-- Rust `StreamBufWriter::advance` (`self.pos = (self.pos + n).min(self.buf.len())`). -/
def StreamBufWriter.advance (s : StreamBufWriter) (n : Nat) : StreamBufWriter :=
  { s with pos := min ((s.pos + n) % USIZE) s.buf.length }

/-- Rust `StreamBufWriter::get_ref` (`&self.buf[..self.pos]`). -/
def StreamBufWriter.get_ref (s : StreamBufWriter) : List Nat :=
  s.buf.take s.pos

/-- Rust `StreamBufWriter::at` (`self.buf[index]`): unguarded absolute indexing;
`none` models the Rust panic on `index >= buf.len()`. -/
def StreamBufWriter.atIdx (s : StreamBufWriter) (index : Nat) : Option Nat :=
  s.buf[index]?

/-- Rust `Index<usize> for StreamBufWriter`: same absolute access as `at`. -/
def StreamBufWriter.index (s : StreamBufWriter) (index : Nat) : Option Nat :=
  s.buf[index]?

/-- Rust `IndexMut<usize> for StreamBufWriter`, used as `sbuf[index] = value`:
absolute byte store; `none` models the Rust panic on `index >= buf.len()`. -/
def StreamBufWriter.index_set (s : StreamBufWriter) (index value : Nat) :
    Option StreamBufWriter :=
  if index < s.buf.length then some { s with buf := s.buf.set index value }
  else none

/-- The `for_each` loop shared by `write_u32`, `write_u16_big_endian`,
`write_u32_big_endian` and `write_f32`:
`bytes.iter().for_each(|&byte| { self.buf[self.pos] = byte; self.pos += 1; })`. -/
def StreamBufWriter.writeLoop : StreamBufWriter → List Nat → StreamBufWriter
  | s, [] => s
  | s, byte :: rest =>
    StreamBufWriter.writeLoop ⟨(s.pos + 1) % USIZE, s.buf.set s.pos byte⟩ rest

/-- Rust `StreamBufWriter::write_u8`. -/
def StreamBufWriter.write_u8 (s : StreamBufWriter) (value : Nat) : StreamBufWriter :=
  if s.is_available 1 then ⟨(s.pos + 1) % USIZE, s.buf.set s.pos value⟩
  else s

/-- Rust `StreamBufWriter::write_u16` (little-endian; two direct stores then
`self.pos += 2` in the source). -/
def StreamBufWriter.write_u16 (s : StreamBufWriter) (value : Nat) : StreamBufWriter :=
  if s.is_available 2 then
    ⟨(s.pos + 2) % USIZE,
      (s.buf.set s.pos ((u16_to_le_bytes value).getD 0 0)).set (s.pos + 1)
        ((u16_to_le_bytes value).getD 1 0)⟩
  else s

/-- Rust `StreamBufWriter::write_u32` (little-endian, via the `for_each` loop). -/
def StreamBufWriter.write_u32 (s : StreamBufWriter) (value : Nat) : StreamBufWriter :=
  if s.is_available 4 then s.writeLoop (u32_to_le_bytes value) else s

/-- Rust `StreamBufWriter::write_u16_big_endian`. -/
def StreamBufWriter.write_u16_big_endian (s : StreamBufWriter) (value : Nat) :
    StreamBufWriter :=
  if s.is_available 2 then s.writeLoop (u16_to_be_bytes value) else s

/-- Rust `StreamBufWriter::write_u32_big_endian`. -/
def StreamBufWriter.write_u32_big_endian (s : StreamBufWriter) (value : Nat) :
    StreamBufWriter :=
  if s.is_available 4 then s.writeLoop (u32_to_be_bytes value) else s

/-- Rust `StreamBufWriter::write_f32`: takes the IEEE-754 bit pattern of the
float and writes its little-endian bytes (`value.to_le_bytes()` in the
source equals `value.to_bits().to_le_bytes()`). -/
def StreamBufWriter.write_f32 (s : StreamBufWriter) (bits : Nat) : StreamBufWriter :=
  if s.is_available 4 then s.writeLoop (u32_to_le_bytes bits) else s

/-- Rust `StreamBufWriter::fill_without_advancing`: bounds-check then
`self.buf[self.pos .. self.pos + len].fill(data)`; returns whether it fitted. -/
def StreamBufWriter.fill_without_advancing (s : StreamBufWriter)
    (data len : Nat) : Bool × StreamBufWriter :=
  if s.buf.length < (s.pos + len) % USIZE then (false, s)
  else (true, { s with buf := setBytes s.buf s.pos (List.replicate len data) })

/-- Rust `StreamBufWriter::fill`: `fill_without_advancing` then advance on success. -/
def StreamBufWriter.fill (s : StreamBufWriter) (data len : Nat) : StreamBufWriter :=
  let r := s.fill_without_advancing data len
  if r.fst then { r.snd with pos := (r.snd.pos + len) % USIZE } else r.snd

/-- Rust `StreamBufWriter::write` of a source slice: all-or-nothing copy,
returns bytes written (`src.len()` on success, 0 on failure). -/
def StreamBufWriter.write (s : StreamBufWriter) (src : List Nat) :
    Nat × StreamBufWriter :=
  let write_size := src.length
  if s.is_available write_size then
    (write_size, ⟨(s.pos + write_size) % USIZE, setBytes s.buf s.pos src⟩)
  else (0, s)

/-- Rust `StreamBufWriter::write_str`: copies the UTF-8 bytes of the string
(the source's `src.as_bytes().try_into()` is infallible, so the `Err`
branch returning 0 is dead code). -/
def StreamBufWriter.write_str (s : StreamBufWriter) (src : List Nat) :
    Nat × StreamBufWriter :=
  let write_size := src.length
  if s.is_available write_size then
    (write_size, ⟨(s.pos + write_size) % USIZE, setBytes s.buf s.pos src⟩)
  else (0, s)

/-- Rust `StreamBufWriter::write_str_with_zero_terminator`: checks
`src.len() + 1` up front, then runs `write_str` followed by `write_u8 0`. -/
def StreamBufWriter.write_str_with_zero_terminator (s : StreamBufWriter)
    (src : List Nat) : Nat × StreamBufWriter :=
  let write_size := src.length + 1
  if s.is_available write_size then
    (write_size, ((s.write_str src).snd.write_u8 0))
  else (0, s)

/-- Rust `From<StreamBufWriter> for StreamBufReader`
(`Self::new(&sbuf.buf[..sbuf.pos()])`): the reader's backing span is the
written prefix of the writer's buffer (`pos <= buf.len()` holds in every
reachable writer state, so the slice is in bounds). -/
def StreamBufReader.fromWriter (w : StreamBufWriter) : StreamBufReader :=
  StreamBufReader.new (w.buf.take w.pos)

/-! ### Auxiliary lemmas about the embedding -/

/-- Any number below the `isize` bound (plus slack) is a valid `usize`. -/
theorem small_lt_usize {n : Nat} (h : n < 2 ^ 63 + 16) : n < USIZE := by
  unfold USIZE; omega

/-- Conversion `as isize` is the identity below the `isize` bound. -/
theorem toIsize_small {n : Nat} (h : n < 2 ^ 63) : toIsize n = (n : Int) := by
  have h64 : n < USIZE := by unfold USIZE; omega
  unfold toIsize
  rw [Nat.mod_eq_of_lt h64, if_pos h]

/-- Function `setBytes` never changes the length of the buffer. -/
theorem setBytes_length : ∀ (xs b : List Nat) (i : Nat),
    (setBytes b i xs).length = b.length := by
  intro xs
  induction xs with
  | nil => intro b i; rfl
  | cons x xs ih => intro b i; simp only [setBytes, ih, List.length_set]

/-- Writing `xs ++ [x]` is writing `xs` and then `x` right after it. -/
theorem setBytes_snoc : ∀ (xs b : List Nat) (i x : Nat),
    setBytes b i (xs ++ [x]) = (setBytes b i xs).set (i + xs.length) x := by
  intro xs
  induction xs with
  | nil => intro b i x; simp [setBytes]
  | cons y ys ih =>
    intro b i x
    simp only [List.cons_append, setBytes, List.length_cons, List.append_eq]
    rw [ih]
    have hidx : i + 1 + ys.length = i + (ys.length + 1) := by omega
    rw [hidx]

/-- Reading back the index just overwritten. -/
theorem getD_set_self {l : List Nat} {i : Nat} (a d : Nat) (h : i < l.length) :
    (l.set i a).getD i d = a := by
  simp [List.getD_eq_getElem?_getD, List.getElem?_set_eq_of_lt a h]

/-- Reading an index other than the one overwritten. -/
theorem getD_set_ne {l : List Nat} {i j : Nat} (a d : Nat) (h : i ≠ j) :
    (l.set i a).getD j d = l.getD j d := by
  simp [List.getD_eq_getElem?_getD, List.getElem?_set_ne h]

/-- The reader's bounds guard succeeds when the bytes are there. -/
theorem is_remaining_true {s : StreamBufReader} {size : Nat}
    (h : s.pos + size ≤ s.buf.length) (hu : s.pos + size < USIZE) :
    s.is_remaining size = true := by
  unfold StreamBufReader.is_remaining
  rw [Nat.mod_eq_of_lt hu, if_neg (by omega)]

/-- The reader's bounds guard fails when the bytes are missing. -/
theorem is_remaining_false {s : StreamBufReader} {size : Nat}
    (h : s.buf.length < s.pos + size) (hu : s.pos + size < USIZE) :
    s.is_remaining size = false := by
  unfold StreamBufReader.is_remaining
  rw [Nat.mod_eq_of_lt hu, if_pos h]

/-- The writer's bounds guard succeeds when the capacity is there. -/
theorem is_available_true {s : StreamBufWriter} {size : Nat}
    (h : s.pos + size ≤ s.buf.length) (hu : s.pos + size < USIZE) :
    s.is_available size = true := by
  unfold StreamBufWriter.is_available
  rw [Nat.mod_eq_of_lt hu, if_neg (by omega)]

/-- The writer's bounds guard fails when the capacity is missing. -/
theorem is_available_false {s : StreamBufWriter} {size : Nat}
    (h : s.buf.length < s.pos + size) (hu : s.pos + size < USIZE) :
    s.is_available size = false := by
  unfold StreamBufWriter.is_available
  rw [Nat.mod_eq_of_lt hu, if_pos h]

/-- Unfolding `advance` below the overflow bound. -/
theorem reader_advance_small {s : StreamBufReader} {n : Nat}
    (hu : s.pos + n < USIZE) :
    s.advance n = ⟨min (s.pos + n) s.buf.length, s.buf⟩ := by
  unfold StreamBufReader.advance
  rw [Nat.mod_eq_of_lt hu]

/-- Unfolding `advance` below the overflow bound (writer). -/
theorem writer_advance_small {s : StreamBufWriter} {n : Nat}
    (hu : s.pos + n < USIZE) :
    s.advance n = ⟨min (s.pos + n) s.buf.length, s.buf⟩ := by
  unfold StreamBufWriter.advance
  rw [Nat.mod_eq_of_lt hu]

/-! ### Step lemmas: one success and one failure lemma per operation,
in states satisfying the cursor invariant and the Rust slice-size bound. -/

theorem read_u8_ok {s : StreamBufReader} (h : s.pos + 1 ≤ s.buf.length)
    (hb : s.buf.length < 2 ^ 63) :
    s.read_u8 = (s.buf.getD s.pos 0, ⟨s.pos + 1, s.buf⟩) := by
  have hu : s.pos + 1 < USIZE := small_lt_usize (by omega)
  unfold StreamBufReader.read_u8
  rw [is_remaining_true h hu]
  simp only [Bool.not_true, Bool.false_eq_true, if_false]
  rw [reader_advance_small hu]
  simp [Nat.min_eq_left h]

theorem read_u8_fail {s : StreamBufReader} (h : s.buf.length < s.pos + 1)
    (hu : s.pos + 1 < USIZE) :
    s.read_u8 = (0, s) := by
  unfold StreamBufReader.read_u8
  rw [is_remaining_false h hu]
  simp

theorem read_u16_ok {s : StreamBufReader} (h : s.pos + 2 ≤ s.buf.length)
    (hb : s.buf.length < 2 ^ 63) :
    s.read_u16 = (u16_from_le_bytes (s.buf.getD s.pos 0) (s.buf.getD (s.pos + 1) 0),
      ⟨s.pos + 2, s.buf⟩) := by
  have hu : s.pos + 2 < USIZE := small_lt_usize (by omega)
  unfold StreamBufReader.read_u16
  rw [is_remaining_true h hu]
  simp only [Bool.not_true, Bool.false_eq_true, if_false]
  rw [reader_advance_small hu]
  simp [Nat.min_eq_left h]

theorem read_u16_fail {s : StreamBufReader} (h : s.buf.length < s.pos + 2)
    (hu : s.pos + 2 < USIZE) :
    s.read_u16 = (0, s) := by
  unfold StreamBufReader.read_u16
  rw [is_remaining_false h hu]
  simp

theorem read_u32_ok {s : StreamBufReader} (h : s.pos + 4 ≤ s.buf.length)
    (hb : s.buf.length < 2 ^ 63) :
    s.read_u32 = (u32_from_le_bytes (s.buf.getD s.pos 0) (s.buf.getD (s.pos + 1) 0)
      (s.buf.getD (s.pos + 2) 0) (s.buf.getD (s.pos + 3) 0), ⟨s.pos + 4, s.buf⟩) := by
  have hu : s.pos + 4 < USIZE := small_lt_usize (by omega)
  unfold StreamBufReader.read_u32
  rw [is_remaining_true h hu]
  simp only [Bool.not_true, Bool.false_eq_true, if_false]
  rw [reader_advance_small hu]
  simp [Nat.min_eq_left h]

theorem read_u32_fail {s : StreamBufReader} (h : s.buf.length < s.pos + 4)
    (hu : s.pos + 4 < USIZE) :
    s.read_u32 = (0, s) := by
  unfold StreamBufReader.read_u32
  rw [is_remaining_false h hu]
  simp

theorem read_u16_big_endian_ok {s : StreamBufReader}
    (h : s.pos + 2 ≤ s.buf.length) (hb : s.buf.length < 2 ^ 63) :
    s.read_u16_big_endian =
      (u16_from_be_bytes (s.buf.getD s.pos 0) (s.buf.getD (s.pos + 1) 0),
        ⟨s.pos + 2, s.buf⟩) := by
  have hu : s.pos + 2 < USIZE := small_lt_usize (by omega)
  unfold StreamBufReader.read_u16_big_endian
  rw [is_remaining_true h hu]
  simp only [Bool.not_true, Bool.false_eq_true, if_false]
  rw [reader_advance_small hu]
  simp [Nat.min_eq_left h]

theorem read_u16_big_endian_fail {s : StreamBufReader}
    (h : s.buf.length < s.pos + 2) (hu : s.pos + 2 < USIZE) :
    s.read_u16_big_endian = (0, s) := by
  unfold StreamBufReader.read_u16_big_endian
  rw [is_remaining_false h hu]
  simp

theorem read_u32_big_endian_ok {s : StreamBufReader}
    (h : s.pos + 4 ≤ s.buf.length) (hb : s.buf.length < 2 ^ 63) :
    s.read_u32_big_endian =
      (u32_from_be_bytes (s.buf.getD s.pos 0) (s.buf.getD (s.pos + 1) 0)
        (s.buf.getD (s.pos + 2) 0) (s.buf.getD (s.pos + 3) 0),
        ⟨s.pos + 4, s.buf⟩) := by
  have hu : s.pos + 4 < USIZE := small_lt_usize (by omega)
  unfold StreamBufReader.read_u32_big_endian
  rw [is_remaining_true h hu]
  simp only [Bool.not_true, Bool.false_eq_true, if_false]
  rw [reader_advance_small hu]
  simp [Nat.min_eq_left h]

theorem read_u32_big_endian_fail {s : StreamBufReader}
    (h : s.buf.length < s.pos + 4) (hu : s.pos + 4 < USIZE) :
    s.read_u32_big_endian = (0, s) := by
  unfold StreamBufReader.read_u32_big_endian
  rw [is_remaining_false h hu]
  simp

theorem read_f32_ok {s : StreamBufReader} (h : s.pos + 4 ≤ s.buf.length)
    (hb : s.buf.length < 2 ^ 63) :
    s.read_f32 = (u32_from_le_bytes (s.buf.getD s.pos 0) (s.buf.getD (s.pos + 1) 0)
      (s.buf.getD (s.pos + 2) 0) (s.buf.getD (s.pos + 3) 0), ⟨s.pos + 4, s.buf⟩) := by
  have hu : s.pos + 4 < USIZE := small_lt_usize (by omega)
  unfold StreamBufReader.read_f32
  rw [is_remaining_true h hu]
  simp only [Bool.not_true, Bool.false_eq_true, if_false]
  exact read_u32_ok h hb

theorem read_f32_fail {s : StreamBufReader} (h : s.buf.length < s.pos + 4)
    (hu : s.pos + 4 < USIZE) :
    s.read_f32 = (0, s) := by
  unfold StreamBufReader.read_f32
  rw [is_remaining_false h hu]
  simp

theorem read_ok {s : StreamBufReader} {dst : List Nat}
    (h : s.pos + dst.length ≤ s.buf.length) (hb : s.buf.length < 2 ^ 63) :
    s.read dst = (dst.length, (s.buf.drop s.pos).take dst.length,
      ⟨s.pos + dst.length, s.buf⟩) := by
  have hu : s.pos + dst.length < USIZE := small_lt_usize (by omega)
  simp only [StreamBufReader.read]
  rw [is_remaining_true h hu]
  simp [Nat.mod_eq_of_lt hu]

theorem read_fail {s : StreamBufReader} {dst : List Nat}
    (h : s.buf.length < s.pos + dst.length) (hu : s.pos + dst.length < USIZE) :
    s.read dst = (0, dst, s) := by
  simp only [StreamBufReader.read]
  rw [is_remaining_false h hu]
  simp

theorem writeLoop_eq (xs : List Nat) : ∀ (s : StreamBufWriter),
    s.pos + xs.length < USIZE →
    s.writeLoop xs = ⟨s.pos + xs.length, setBytes s.buf s.pos xs⟩ := by
  induction xs with
  | nil => intro s h; simp [StreamBufWriter.writeLoop, setBytes]
  | cons x xs ih =>
    intro s h
    simp only [List.length_cons] at h
    have h1 : s.pos + 1 < USIZE := by omega
    unfold StreamBufWriter.writeLoop
    rw [Nat.mod_eq_of_lt h1, ih ⟨s.pos + 1, s.buf.set s.pos x⟩ (by simp; omega)]
    simp only [setBytes, List.length_cons]
    have hidx : s.pos + 1 + xs.length = s.pos + (xs.length + 1) := by omega
    rw [hidx]

theorem write_u8_ok {s : StreamBufWriter} {v : Nat}
    (h : s.pos + 1 ≤ s.buf.length) (hb : s.buf.length < 2 ^ 63) :
    s.write_u8 v = ⟨s.pos + 1, s.buf.set s.pos v⟩ := by
  have hu : s.pos + 1 < USIZE := small_lt_usize (by omega)
  unfold StreamBufWriter.write_u8
  rw [is_available_true h hu, Nat.mod_eq_of_lt hu]
  simp

theorem write_u8_fail {s : StreamBufWriter} {v : Nat}
    (h : s.buf.length < s.pos + 1) (hu : s.pos + 1 < USIZE) :
    s.write_u8 v = s := by
  unfold StreamBufWriter.write_u8
  rw [is_available_false h hu]
  simp

theorem write_u16_ok {s : StreamBufWriter} {v : Nat}
    (h : s.pos + 2 ≤ s.buf.length) (hb : s.buf.length < 2 ^ 63) :
    s.write_u16 v =
      ⟨s.pos + 2, (s.buf.set s.pos (v % 2 ^ 8)).set (s.pos + 1) (v / 2 ^ 8 % 2 ^ 8)⟩ := by
  have hu : s.pos + 2 < USIZE := small_lt_usize (by omega)
  unfold StreamBufWriter.write_u16
  rw [is_available_true h hu, Nat.mod_eq_of_lt hu]
  simp [u16_to_le_bytes]

theorem write_u16_fail {s : StreamBufWriter} {v : Nat}
    (h : s.buf.length < s.pos + 2) (hu : s.pos + 2 < USIZE) :
    s.write_u16 v = s := by
  unfold StreamBufWriter.write_u16
  rw [is_available_false h hu]
  simp

theorem write_u32_ok {s : StreamBufWriter} {v : Nat}
    (h : s.pos + 4 ≤ s.buf.length) (hb : s.buf.length < 2 ^ 63) :
    s.write_u32 v = ⟨s.pos + 4, setBytes s.buf s.pos (u32_to_le_bytes v)⟩ := by
  have hu : s.pos + 4 < USIZE := small_lt_usize (by omega)
  unfold StreamBufWriter.write_u32
  rw [is_available_true h hu]
  simp only [if_true]
  rw [writeLoop_eq _ _ (by simp [u32_to_le_bytes]; omega)]
  simp [u32_to_le_bytes]

theorem write_u32_fail {s : StreamBufWriter} {v : Nat}
    (h : s.buf.length < s.pos + 4) (hu : s.pos + 4 < USIZE) :
    s.write_u32 v = s := by
  unfold StreamBufWriter.write_u32
  rw [is_available_false h hu]
  simp

theorem write_u16_big_endian_ok {s : StreamBufWriter} {v : Nat}
    (h : s.pos + 2 ≤ s.buf.length) (hb : s.buf.length < 2 ^ 63) :
    s.write_u16_big_endian v = ⟨s.pos + 2, setBytes s.buf s.pos (u16_to_be_bytes v)⟩ := by
  have hu : s.pos + 2 < USIZE := small_lt_usize (by omega)
  unfold StreamBufWriter.write_u16_big_endian
  rw [is_available_true h hu]
  simp only [if_true]
  rw [writeLoop_eq _ _ (by simp [u16_to_be_bytes]; omega)]
  simp [u16_to_be_bytes]

theorem write_u16_big_endian_fail {s : StreamBufWriter} {v : Nat}
    (h : s.buf.length < s.pos + 2) (hu : s.pos + 2 < USIZE) :
    s.write_u16_big_endian v = s := by
  unfold StreamBufWriter.write_u16_big_endian
  rw [is_available_false h hu]
  simp

theorem write_u32_big_endian_ok {s : StreamBufWriter} {v : Nat}
    (h : s.pos + 4 ≤ s.buf.length) (hb : s.buf.length < 2 ^ 63) :
    s.write_u32_big_endian v = ⟨s.pos + 4, setBytes s.buf s.pos (u32_to_be_bytes v)⟩ := by
  have hu : s.pos + 4 < USIZE := small_lt_usize (by omega)
  unfold StreamBufWriter.write_u32_big_endian
  rw [is_available_true h hu]
  simp only [if_true]
  rw [writeLoop_eq _ _ (by simp [u32_to_be_bytes]; omega)]
  simp [u32_to_be_bytes]

theorem write_u32_big_endian_fail {s : StreamBufWriter} {v : Nat}
    (h : s.buf.length < s.pos + 4) (hu : s.pos + 4 < USIZE) :
    s.write_u32_big_endian v = s := by
  unfold StreamBufWriter.write_u32_big_endian
  rw [is_available_false h hu]
  simp

theorem write_f32_ok {s : StreamBufWriter} {bits : Nat}
    (h : s.pos + 4 ≤ s.buf.length) (hb : s.buf.length < 2 ^ 63) :
    s.write_f32 bits = ⟨s.pos + 4, setBytes s.buf s.pos (u32_to_le_bytes bits)⟩ := by
  have hu : s.pos + 4 < USIZE := small_lt_usize (by omega)
  unfold StreamBufWriter.write_f32
  rw [is_available_true h hu]
  simp only [if_true]
  rw [writeLoop_eq _ _ (by simp [u32_to_le_bytes]; omega)]
  simp [u32_to_le_bytes]

theorem write_f32_fail {s : StreamBufWriter} {bits : Nat}
    (h : s.buf.length < s.pos + 4) (hu : s.pos + 4 < USIZE) :
    s.write_f32 bits = s := by
  unfold StreamBufWriter.write_f32
  rw [is_available_false h hu]
  simp

theorem write_ok {s : StreamBufWriter} {src : List Nat}
    (h : s.pos + src.length ≤ s.buf.length) (hb : s.buf.length < 2 ^ 63) :
    s.write src = (src.length, ⟨s.pos + src.length, setBytes s.buf s.pos src⟩) := by
  have hu : s.pos + src.length < USIZE := small_lt_usize (by omega)
  simp only [StreamBufWriter.write]
  rw [is_available_true h hu, Nat.mod_eq_of_lt hu]
  simp

theorem write_fail {s : StreamBufWriter} {src : List Nat}
    (h : s.buf.length < s.pos + src.length) (hu : s.pos + src.length < USIZE) :
    s.write src = (0, s) := by
  simp only [StreamBufWriter.write]
  rw [is_available_false h hu]
  simp

theorem write_str_ok {s : StreamBufWriter} {src : List Nat}
    (h : s.pos + src.length ≤ s.buf.length) (hb : s.buf.length < 2 ^ 63) :
    s.write_str src = (src.length, ⟨s.pos + src.length, setBytes s.buf s.pos src⟩) := by
  have hu : s.pos + src.length < USIZE := small_lt_usize (by omega)
  simp only [StreamBufWriter.write_str]
  rw [is_available_true h hu, Nat.mod_eq_of_lt hu]
  simp

theorem write_str_fail {s : StreamBufWriter} {src : List Nat}
    (h : s.buf.length < s.pos + src.length) (hu : s.pos + src.length < USIZE) :
    s.write_str src = (0, s) := by
  simp only [StreamBufWriter.write_str]
  rw [is_available_false h hu]
  simp

theorem write_str_with_zero_terminator_ok {s : StreamBufWriter} {src : List Nat}
    (h : s.pos + src.length + 1 ≤ s.buf.length) (hb : s.buf.length < 2 ^ 63) :
    s.write_str_with_zero_terminator src =
      (src.length + 1, ⟨s.pos + src.length + 1, setBytes s.buf s.pos (src ++ [0])⟩) := by
  have hu : s.pos + (src.length + 1) < USIZE := small_lt_usize (by omega)
  simp only [StreamBufWriter.write_str_with_zero_terminator]
  rw [is_available_true (by omega) hu]
  simp only [if_true]
  rw [write_str_ok (by omega) hb]
  rw [write_u8_ok (s := ⟨s.pos + src.length, setBytes s.buf s.pos src⟩)
    (by simp [setBytes_length]; omega) (by simp [setBytes_length]; omega)]
  rw [setBytes_snoc]

theorem write_str_with_zero_terminator_fail {s : StreamBufWriter} {src : List Nat}
    (h : s.buf.length < s.pos + src.length + 1) (hu : s.pos + src.length + 1 < USIZE) :
    s.write_str_with_zero_terminator src = (0, s) := by
  simp only [StreamBufWriter.write_str_with_zero_terminator]
  rw [is_available_false (by omega) (by omega)]
  simp

theorem fill_without_advancing_ok {s : StreamBufWriter} {d len : Nat}
    (h : s.pos + len ≤ s.buf.length) (hb : s.buf.length < 2 ^ 63) :
    s.fill_without_advancing d len =
      (true, ⟨s.pos, setBytes s.buf s.pos (List.replicate len d)⟩) := by
  have hu : s.pos + len < USIZE := small_lt_usize (by omega)
  unfold StreamBufWriter.fill_without_advancing
  rw [Nat.mod_eq_of_lt hu, if_neg (by omega)]

theorem fill_without_advancing_fail {s : StreamBufWriter} {d len : Nat}
    (h : s.buf.length < s.pos + len) (hu : s.pos + len < USIZE) :
    s.fill_without_advancing d len = (false, s) := by
  unfold StreamBufWriter.fill_without_advancing
  rw [Nat.mod_eq_of_lt hu, if_pos h]

theorem fill_ok {s : StreamBufWriter} {d len : Nat}
    (h : s.pos + len ≤ s.buf.length) (hb : s.buf.length < 2 ^ 63) :
    s.fill d len = ⟨s.pos + len, setBytes s.buf s.pos (List.replicate len d)⟩ := by
  have hu : s.pos + len < USIZE := small_lt_usize (by omega)
  unfold StreamBufWriter.fill
  rw [fill_without_advancing_ok h hb]
  simp [Nat.mod_eq_of_lt hu]

theorem fill_fail {s : StreamBufWriter} {d len : Nat}
    (h : s.buf.length < s.pos + len) (hu : s.pos + len < USIZE) :
    s.fill d len = s := by
  unfold StreamBufWriter.fill
  rw [fill_without_advancing_fail h hu]
  simp

/-! ### Claims -/

/-- C9: a reader over bytes `[0x0a,0x1b,0x2c,0x3d,0x4e,0x5f,0x60]` returns
`0x0a` from `read_u8` leaving position 1, then `0x2c1b` from little-endian
`read_u16` leaving position 3, then `0x605f4e3d` from little-endian
`read_u32` leaving position 7. -/
theorem claim_C9_literal_decode :
    (StreamBufReader.new [0x0a, 0x1b, 0x2c, 0x3d, 0x4e, 0x5f, 0x60]).read_u8 =
      (0x0a, StreamBufReader.mk 1 [0x0a, 0x1b, 0x2c, 0x3d, 0x4e, 0x5f, 0x60]) ∧
    (StreamBufReader.mk 1 [0x0a, 0x1b, 0x2c, 0x3d, 0x4e, 0x5f, 0x60]).read_u16 =
      (0x2c1b, StreamBufReader.mk 3 [0x0a, 0x1b, 0x2c, 0x3d, 0x4e, 0x5f, 0x60]) ∧
    (StreamBufReader.mk 3 [0x0a, 0x1b, 0x2c, 0x3d, 0x4e, 0x5f, 0x60]).read_u32 =
      (0x605f4e3d, StreamBufReader.mk 7 [0x0a, 0x1b, 0x2c, 0x3d, 0x4e, 0x5f, 0x60]) := by
  decide

/-- C6 counterexample: `advance` first wraps the `usize` addition
`position + n` modulo `2 ^ 64` and only then clamps, so from position 5 of
an 8-byte span, `advance (2 ^ 64 - 1)` yields position 4, not
`min (5 + (2 ^ 64 - 1)) 8 = 8` as the claim's formula requires. -/
theorem claim_C6_counterexample :
    (((StreamBufWriter.new (List.replicate 8 0)).advance 5).advance (2 ^ 64 - 1)).pos ≠
      min (((StreamBufWriter.new (List.replicate 8 0)).advance 5).pos + (2 ^ 64 - 1))
        (List.replicate 8 (0 : Nat)).length := by
  decide

/-- C6 (amended): for every reader or writer state and every `n`,
`advance n` sets the position to `min ((position + n) % 2 ^ 64) span.length`
— it is total (never panics) and never moves the position past the end of
the span; whenever `position + n` does not overflow the unsigned index
type, this equals `min (position + n) span.length`. -/
theorem claim_C6_advance_clamped (r : StreamBufReader) (w : StreamBufWriter)
    (n : Nat) :
    (r.advance n).pos = min ((r.pos + n) % USIZE) r.buf.length ∧
    (r.advance n).pos ≤ r.buf.length ∧
    (r.advance n).buf = r.buf ∧
    (r.pos + n < USIZE → (r.advance n).pos = min (r.pos + n) r.buf.length) ∧
    (w.advance n).pos = min ((w.pos + n) % USIZE) w.buf.length ∧
    (w.advance n).pos ≤ w.buf.length ∧
    (w.advance n).buf = w.buf ∧
    (w.pos + n < USIZE → (w.advance n).pos = min (w.pos + n) w.buf.length) := by
  refine ⟨rfl, Nat.min_le_right _ _, rfl, fun h => ?_, rfl,
    Nat.min_le_right _ _, rfl, fun h => ?_⟩
  · rw [reader_advance_small h]
  · rw [writer_advance_small h]

/-- C6 witness: the amended clamping law evaluated on a concrete reader. -/
theorem claim_C6_witness :
    ((StreamBufReader.mk 1 [5, 6]).advance 3).pos = min ((1 + 3) % USIZE) 2 ∧
    ((StreamBufReader.mk 1 [5, 6]).advance 3).pos = min (1 + 3) 2 := by
  have h := claim_C6_advance_clamped (StreamBufReader.mk 1 [5, 6])
    (StreamBufWriter.mk 0 []) 3
  exact ⟨h.1, h.2.2.2.1 (by decide)⟩

/-! ### Invariant-preservation helpers (used by the position-invariant claim) -/

theorem c3aux_read_u8 {s : StreamBufReader} (hp : s.pos ≤ s.buf.length)
    (hb : s.buf.length < 2 ^ 63) :
    (s.read_u8).2.pos ≤ (s.read_u8).2.buf.length ∧ s.pos ≤ (s.read_u8).2.pos := by
  by_cases h : s.pos + 1 ≤ s.buf.length
  · rw [read_u8_ok h hb]; exact ⟨h, Nat.le_succ s.pos⟩
  · rw [read_u8_fail (by omega) (small_lt_usize (by omega))]
    exact ⟨hp, Nat.le_refl s.pos⟩

theorem c3aux_read_u16 {s : StreamBufReader} (hp : s.pos ≤ s.buf.length)
    (hb : s.buf.length < 2 ^ 63) :
    (s.read_u16).2.pos ≤ (s.read_u16).2.buf.length ∧ s.pos ≤ (s.read_u16).2.pos := by
  by_cases h : s.pos + 2 ≤ s.buf.length
  · rw [read_u16_ok h hb]; exact ⟨h, Nat.le_add_right s.pos 2⟩
  · rw [read_u16_fail (by omega) (small_lt_usize (by omega))]
    exact ⟨hp, Nat.le_refl s.pos⟩

theorem c3aux_read_u32 {s : StreamBufReader} (hp : s.pos ≤ s.buf.length)
    (hb : s.buf.length < 2 ^ 63) :
    (s.read_u32).2.pos ≤ (s.read_u32).2.buf.length ∧ s.pos ≤ (s.read_u32).2.pos := by
  by_cases h : s.pos + 4 ≤ s.buf.length
  · rw [read_u32_ok h hb]; exact ⟨h, Nat.le_add_right s.pos 4⟩
  · rw [read_u32_fail (by omega) (small_lt_usize (by omega))]
    exact ⟨hp, Nat.le_refl s.pos⟩

theorem c3aux_read_u16_big_endian {s : StreamBufReader} (hp : s.pos ≤ s.buf.length)
    (hb : s.buf.length < 2 ^ 63) :
    (s.read_u16_big_endian).2.pos ≤ (s.read_u16_big_endian).2.buf.length ∧
      s.pos ≤ (s.read_u16_big_endian).2.pos := by
  by_cases h : s.pos + 2 ≤ s.buf.length
  · rw [read_u16_big_endian_ok h hb]; exact ⟨h, Nat.le_add_right s.pos 2⟩
  · rw [read_u16_big_endian_fail (by omega) (small_lt_usize (by omega))]
    exact ⟨hp, Nat.le_refl s.pos⟩

theorem c3aux_read_u32_big_endian {s : StreamBufReader} (hp : s.pos ≤ s.buf.length)
    (hb : s.buf.length < 2 ^ 63) :
    (s.read_u32_big_endian).2.pos ≤ (s.read_u32_big_endian).2.buf.length ∧
      s.pos ≤ (s.read_u32_big_endian).2.pos := by
  by_cases h : s.pos + 4 ≤ s.buf.length
  · rw [read_u32_big_endian_ok h hb]; exact ⟨h, Nat.le_add_right s.pos 4⟩
  · rw [read_u32_big_endian_fail (by omega) (small_lt_usize (by omega))]
    exact ⟨hp, Nat.le_refl s.pos⟩

theorem c3aux_read_f32 {s : StreamBufReader} (hp : s.pos ≤ s.buf.length)
    (hb : s.buf.length < 2 ^ 63) :
    (s.read_f32).2.pos ≤ (s.read_f32).2.buf.length ∧ s.pos ≤ (s.read_f32).2.pos := by
  by_cases h : s.pos + 4 ≤ s.buf.length
  · rw [read_f32_ok h hb]; exact ⟨h, Nat.le_add_right s.pos 4⟩
  · rw [read_f32_fail (by omega) (small_lt_usize (by omega))]
    exact ⟨hp, Nat.le_refl s.pos⟩

theorem c3aux_read {s : StreamBufReader} {dst : List Nat}
    (hp : s.pos ≤ s.buf.length) (hb : s.buf.length < 2 ^ 63)
    (hd : dst.length < 2 ^ 63) :
    (s.read dst).2.2.pos ≤ (s.read dst).2.2.buf.length ∧
      s.pos ≤ (s.read dst).2.2.pos := by
  by_cases h : s.pos + dst.length ≤ s.buf.length
  · rw [read_ok h hb]; exact ⟨h, Nat.le_add_right s.pos dst.length⟩
  · rw [read_fail (by omega) (by unfold USIZE; omega)]
    exact ⟨hp, Nat.le_refl s.pos⟩

theorem c3aux_write_u8 {s : StreamBufWriter} {v : Nat} (hp : s.pos ≤ s.buf.length)
    (hb : s.buf.length < 2 ^ 63) :
    (s.write_u8 v).pos ≤ (s.write_u8 v).buf.length ∧ s.pos ≤ (s.write_u8 v).pos := by
  by_cases h : s.pos + 1 ≤ s.buf.length
  · rw [write_u8_ok h hb]
    exact ⟨by simpa using h, Nat.le_succ s.pos⟩
  · rw [write_u8_fail (by omega) (small_lt_usize (by omega))]
    exact ⟨hp, Nat.le_refl s.pos⟩

theorem c3aux_write_u16 {s : StreamBufWriter} {v : Nat} (hp : s.pos ≤ s.buf.length)
    (hb : s.buf.length < 2 ^ 63) :
    (s.write_u16 v).pos ≤ (s.write_u16 v).buf.length ∧ s.pos ≤ (s.write_u16 v).pos := by
  by_cases h : s.pos + 2 ≤ s.buf.length
  · rw [write_u16_ok h hb]
    exact ⟨by simpa using h, Nat.le_add_right s.pos 2⟩
  · rw [write_u16_fail (by omega) (small_lt_usize (by omega))]
    exact ⟨hp, Nat.le_refl s.pos⟩

theorem c3aux_write_u32 {s : StreamBufWriter} {v : Nat} (hp : s.pos ≤ s.buf.length)
    (hb : s.buf.length < 2 ^ 63) :
    (s.write_u32 v).pos ≤ (s.write_u32 v).buf.length ∧ s.pos ≤ (s.write_u32 v).pos := by
  by_cases h : s.pos + 4 ≤ s.buf.length
  · rw [write_u32_ok h hb]
    exact ⟨by simpa [setBytes_length] using h, Nat.le_add_right s.pos 4⟩
  · rw [write_u32_fail (by omega) (small_lt_usize (by omega))]
    exact ⟨hp, Nat.le_refl s.pos⟩

theorem c3aux_write_u16_big_endian {s : StreamBufWriter} {v : Nat}
    (hp : s.pos ≤ s.buf.length) (hb : s.buf.length < 2 ^ 63) :
    (s.write_u16_big_endian v).pos ≤ (s.write_u16_big_endian v).buf.length ∧
      s.pos ≤ (s.write_u16_big_endian v).pos := by
  by_cases h : s.pos + 2 ≤ s.buf.length
  · rw [write_u16_big_endian_ok h hb]
    exact ⟨by simpa [setBytes_length] using h, Nat.le_add_right s.pos 2⟩
  · rw [write_u16_big_endian_fail (by omega) (small_lt_usize (by omega))]
    exact ⟨hp, Nat.le_refl s.pos⟩

theorem c3aux_write_u32_big_endian {s : StreamBufWriter} {v : Nat}
    (hp : s.pos ≤ s.buf.length) (hb : s.buf.length < 2 ^ 63) :
    (s.write_u32_big_endian v).pos ≤ (s.write_u32_big_endian v).buf.length ∧
      s.pos ≤ (s.write_u32_big_endian v).pos := by
  by_cases h : s.pos + 4 ≤ s.buf.length
  · rw [write_u32_big_endian_ok h hb]
    exact ⟨by simpa [setBytes_length] using h, Nat.le_add_right s.pos 4⟩
  · rw [write_u32_big_endian_fail (by omega) (small_lt_usize (by omega))]
    exact ⟨hp, Nat.le_refl s.pos⟩

theorem c3aux_write_f32 {s : StreamBufWriter} {bits : Nat}
    (hp : s.pos ≤ s.buf.length) (hb : s.buf.length < 2 ^ 63) :
    (s.write_f32 bits).pos ≤ (s.write_f32 bits).buf.length ∧
      s.pos ≤ (s.write_f32 bits).pos := by
  by_cases h : s.pos + 4 ≤ s.buf.length
  · rw [write_f32_ok h hb]
    exact ⟨by simpa [setBytes_length] using h, Nat.le_add_right s.pos 4⟩
  · rw [write_f32_fail (by omega) (small_lt_usize (by omega))]
    exact ⟨hp, Nat.le_refl s.pos⟩

theorem c3aux_write {s : StreamBufWriter} {src : List Nat}
    (hp : s.pos ≤ s.buf.length) (hb : s.buf.length < 2 ^ 63)
    (hs : src.length < 2 ^ 63) :
    (s.write src).2.pos ≤ (s.write src).2.buf.length ∧
      s.pos ≤ (s.write src).2.pos := by
  by_cases h : s.pos + src.length ≤ s.buf.length
  · rw [write_ok h hb]
    exact ⟨by simpa [setBytes_length] using h, Nat.le_add_right s.pos src.length⟩
  · rw [write_fail (by omega) (by unfold USIZE; omega)]
    exact ⟨hp, Nat.le_refl s.pos⟩

theorem c3aux_write_str {s : StreamBufWriter} {src : List Nat}
    (hp : s.pos ≤ s.buf.length) (hb : s.buf.length < 2 ^ 63)
    (hs : src.length < 2 ^ 63) :
    (s.write_str src).2.pos ≤ (s.write_str src).2.buf.length ∧
      s.pos ≤ (s.write_str src).2.pos := by
  by_cases h : s.pos + src.length ≤ s.buf.length
  · rw [write_str_ok h hb]
    exact ⟨by simpa [setBytes_length] using h, Nat.le_add_right s.pos src.length⟩
  · rw [write_str_fail (by omega) (by unfold USIZE; omega)]
    exact ⟨hp, Nat.le_refl s.pos⟩

theorem c3aux_write_str_with_zero_terminator {s : StreamBufWriter} {src : List Nat}
    (hp : s.pos ≤ s.buf.length) (hb : s.buf.length < 2 ^ 63)
    (hs : src.length < 2 ^ 63) :
    (s.write_str_with_zero_terminator src).2.pos ≤
        (s.write_str_with_zero_terminator src).2.buf.length ∧
      s.pos ≤ (s.write_str_with_zero_terminator src).2.pos := by
  by_cases h : s.pos + src.length + 1 ≤ s.buf.length
  · rw [write_str_with_zero_terminator_ok h hb]
    refine ⟨?_, by show s.pos ≤ s.pos + src.length + 1; omega⟩
    have hl := setBytes_length (src ++ [0]) s.buf s.pos
    simpa [hl] using h
  · rw [write_str_with_zero_terminator_fail (by omega) (by unfold USIZE; omega)]
    exact ⟨hp, Nat.le_refl s.pos⟩

theorem c3aux_fill {s : StreamBufWriter} {d n : Nat}
    (hp : s.pos ≤ s.buf.length) (hb : s.buf.length < 2 ^ 63)
    (hn : s.pos + n < USIZE) :
    (s.fill d n).pos ≤ (s.fill d n).buf.length ∧ s.pos ≤ (s.fill d n).pos := by
  by_cases h : s.pos + n ≤ s.buf.length
  · rw [fill_ok h hb]
    exact ⟨by simpa [setBytes_length] using h, Nat.le_add_right s.pos n⟩
  · rw [fill_fail (by omega) hn]
    exact ⟨hp, Nat.le_refl s.pos⟩

theorem c3aux_fill_without_advancing {s : StreamBufWriter} {d n : Nat}
    (hp : s.pos ≤ s.buf.length) (hb : s.buf.length < 2 ^ 63)
    (hn : s.pos + n < USIZE) :
    (s.fill_without_advancing d n).2.pos ≤ (s.fill_without_advancing d n).2.buf.length ∧
      s.pos ≤ (s.fill_without_advancing d n).2.pos := by
  by_cases h : s.pos + n ≤ s.buf.length
  · rw [fill_without_advancing_ok h hb]
    exact ⟨by simpa [setBytes_length] using hp, Nat.le_refl s.pos⟩
  · rw [fill_without_advancing_fail (by omega) hn]
    exact ⟨hp, Nat.le_refl s.pos⟩

/-- C3 counterexample: `advance` is not `reset`, yet from position 5 of an
8-byte span, `advance (2 ^ 64 - 1)` wraps the `usize` addition and strictly
decreases the position (to 4), so an operation other than `reset`
decreases the position. -/
theorem claim_C3_counterexample :
    (((StreamBufReader.new (List.replicate 8 0)).advance 5).advance (2 ^ 64 - 1)).pos <
      ((StreamBufReader.new (List.replicate 8 0)).advance 5).pos := by
  decide

/-- C3 (amended): for every reader and writer the invariant
`0 ≤ position ≤ span.length` holds initially (position starts at 0) and is
preserved by every operation (for `fill`/`fill_without_advancing` in the
overflow-free regime — past it the source's slice expression panics);
`reset` sets the position to exactly 0; and no operation other than
`reset` ever decreases the position, **provided** the `usize` addition of
`advance`/`fill` does not overflow (`position + n < 2 ^ 64`) — with an
overflowing `n`, `advance` wraps modulo `2 ^ 64` and can decrease the
position. -/
theorem claim_C3_position_invariant :
    ∀ (p n v d : Nat) (b src dst : List Nat),
      p ≤ b.length → b.length < 2 ^ 63 → src.length < 2 ^ 63 → dst.length < 2 ^ 63 →
      ((StreamBufReader.new b).pos = 0 ∧ (StreamBufWriter.new b).pos = 0) ∧
      ((StreamBufReader.mk p b).reset.pos = 0 ∧
        (StreamBufWriter.mk p b).reset.pos = 0) ∧
      (((StreamBufReader.mk p b).advance n).pos ≤ b.length ∧
        ((StreamBufWriter.mk p b).advance n).pos ≤ b.length) ∧
      (p + n < USIZE → p ≤ ((StreamBufReader.mk p b).advance n).pos ∧
        p ≤ ((StreamBufWriter.mk p b).advance n).pos) ∧
      (((StreamBufReader.mk p b).read_u8).2.pos ≤
          ((StreamBufReader.mk p b).read_u8).2.buf.length ∧
        p ≤ ((StreamBufReader.mk p b).read_u8).2.pos) ∧
      (((StreamBufReader.mk p b).read_u16).2.pos ≤
          ((StreamBufReader.mk p b).read_u16).2.buf.length ∧
        p ≤ ((StreamBufReader.mk p b).read_u16).2.pos) ∧
      (((StreamBufReader.mk p b).read_u32).2.pos ≤
          ((StreamBufReader.mk p b).read_u32).2.buf.length ∧
        p ≤ ((StreamBufReader.mk p b).read_u32).2.pos) ∧
      (((StreamBufReader.mk p b).read_u16_big_endian).2.pos ≤
          ((StreamBufReader.mk p b).read_u16_big_endian).2.buf.length ∧
        p ≤ ((StreamBufReader.mk p b).read_u16_big_endian).2.pos) ∧
      (((StreamBufReader.mk p b).read_u32_big_endian).2.pos ≤
          ((StreamBufReader.mk p b).read_u32_big_endian).2.buf.length ∧
        p ≤ ((StreamBufReader.mk p b).read_u32_big_endian).2.pos) ∧
      (((StreamBufReader.mk p b).read_f32).2.pos ≤
          ((StreamBufReader.mk p b).read_f32).2.buf.length ∧
        p ≤ ((StreamBufReader.mk p b).read_f32).2.pos) ∧
      (((StreamBufReader.mk p b).read dst).2.2.pos ≤
          ((StreamBufReader.mk p b).read dst).2.2.buf.length ∧
        p ≤ ((StreamBufReader.mk p b).read dst).2.2.pos) ∧
      (((StreamBufWriter.mk p b).write_u8 v).pos ≤
          ((StreamBufWriter.mk p b).write_u8 v).buf.length ∧
        p ≤ ((StreamBufWriter.mk p b).write_u8 v).pos) ∧
      (((StreamBufWriter.mk p b).write_u16 v).pos ≤
          ((StreamBufWriter.mk p b).write_u16 v).buf.length ∧
        p ≤ ((StreamBufWriter.mk p b).write_u16 v).pos) ∧
      (((StreamBufWriter.mk p b).write_u32 v).pos ≤
          ((StreamBufWriter.mk p b).write_u32 v).buf.length ∧
        p ≤ ((StreamBufWriter.mk p b).write_u32 v).pos) ∧
      (((StreamBufWriter.mk p b).write_u16_big_endian v).pos ≤
          ((StreamBufWriter.mk p b).write_u16_big_endian v).buf.length ∧
        p ≤ ((StreamBufWriter.mk p b).write_u16_big_endian v).pos) ∧
      (((StreamBufWriter.mk p b).write_u32_big_endian v).pos ≤
          ((StreamBufWriter.mk p b).write_u32_big_endian v).buf.length ∧
        p ≤ ((StreamBufWriter.mk p b).write_u32_big_endian v).pos) ∧
      (((StreamBufWriter.mk p b).write_f32 v).pos ≤
          ((StreamBufWriter.mk p b).write_f32 v).buf.length ∧
        p ≤ ((StreamBufWriter.mk p b).write_f32 v).pos) ∧
      (((StreamBufWriter.mk p b).write src).2.pos ≤
          ((StreamBufWriter.mk p b).write src).2.buf.length ∧
        p ≤ ((StreamBufWriter.mk p b).write src).2.pos) ∧
      (((StreamBufWriter.mk p b).write_str src).2.pos ≤
          ((StreamBufWriter.mk p b).write_str src).2.buf.length ∧
        p ≤ ((StreamBufWriter.mk p b).write_str src).2.pos) ∧
      (((StreamBufWriter.mk p b).write_str_with_zero_terminator src).2.pos ≤
          ((StreamBufWriter.mk p b).write_str_with_zero_terminator src).2.buf.length ∧
        p ≤ ((StreamBufWriter.mk p b).write_str_with_zero_terminator src).2.pos) ∧
      (p + n < USIZE → ((StreamBufWriter.mk p b).fill d n).pos ≤
          ((StreamBufWriter.mk p b).fill d n).buf.length ∧
        p ≤ ((StreamBufWriter.mk p b).fill d n).pos) ∧
      (p + n < USIZE → ((StreamBufWriter.mk p b).fill_without_advancing d n).2.pos ≤
          ((StreamBufWriter.mk p b).fill_without_advancing d n).2.buf.length ∧
        p ≤ ((StreamBufWriter.mk p b).fill_without_advancing d n).2.pos) ∧
      ((StreamBufReader.fromWriter (StreamBufWriter.mk p b)).pos = 0 ∧
        (StreamBufReader.fromWriter (StreamBufWriter.mk p b)).pos ≤
          (StreamBufReader.fromWriter (StreamBufWriter.mk p b)).buf.length) := by
  intro p n v d b src dst hp hb hsrc hdst
  refine ⟨⟨rfl, rfl⟩, ⟨rfl, rfl⟩, ⟨Nat.min_le_right _ _, Nat.min_le_right _ _⟩,
    fun hn => ⟨?_, ?_⟩,
    c3aux_read_u8 hp hb, c3aux_read_u16 hp hb, c3aux_read_u32 hp hb,
    c3aux_read_u16_big_endian hp hb, c3aux_read_u32_big_endian hp hb,
    c3aux_read_f32 hp hb, c3aux_read hp hb hdst,
    c3aux_write_u8 hp hb, c3aux_write_u16 hp hb, c3aux_write_u32 hp hb,
    c3aux_write_u16_big_endian hp hb, c3aux_write_u32_big_endian hp hb,
    c3aux_write_f32 hp hb, c3aux_write hp hb hsrc, c3aux_write_str hp hb hsrc,
    c3aux_write_str_with_zero_terminator hp hb hsrc,
    fun hn => c3aux_fill hp hb hn, fun hn => c3aux_fill_without_advancing hp hb hn,
    ⟨rfl, Nat.zero_le _⟩⟩
  · rw [reader_advance_small hn]
    exact Nat.le_min.mpr ⟨Nat.le_add_right _ _, hp⟩
  · rw [writer_advance_small hn]
    exact Nat.le_min.mpr ⟨Nat.le_add_right _ _, hp⟩

/-- C3 witness: the preserved invariant evaluated at a concrete reader
state and operation. -/
theorem claim_C3_witness :
    ((StreamBufReader.mk 1 [9, 9]).read_u8).2.pos ≤
        ((StreamBufReader.mk 1 [9, 9]).read_u8).2.buf.length ∧
      1 ≤ ((StreamBufReader.mk 1 [9, 9]).read_u8).2.pos := by
  exact (claim_C3_position_invariant 1 1 0 0 [9, 9] [] [] (by decide) (by decide)
    (by decide) (by decide)).2.2.2.2.1

/-- Function `bytes_remaining` is plain subtraction in realistic reader states. -/
theorem bytes_remaining_eq_reader {s : StreamBufReader}
    (hp : s.pos ≤ s.buf.length) (hb : s.buf.length < 2 ^ 63) :
    s.bytes_remaining = s.buf.length - s.pos := by
  unfold StreamBufReader.bytes_remaining
  rw [toIsize_small hb, toIsize_small (by omega)]
  split_ifs with h
  · omega
  · omega

/-- Function `bytes_remaining` is plain subtraction in realistic writer states. -/
theorem bytes_remaining_eq_writer {s : StreamBufWriter}
    (hp : s.pos ≤ s.buf.length) (hb : s.buf.length < 2 ^ 63) :
    s.bytes_remaining = s.buf.length - s.pos := by
  unfold StreamBufWriter.bytes_remaining
  rw [toIsize_small hb, toIsize_small (by omega)]
  split_ifs with h
  · omega
  · omega

/-- C8: `reset` sets the position to 0 and leaves the span bytes untouched
(no memory is zeroed); afterwards `bytes_remaining` is the full span
length (stated for spans within the Rust slice-size bound `2 ^ 63`), and
resetting again yields the same state — for both readers and writers, from
any prior state. -/
theorem claim_C8_reset_idempotent :
    ∀ (r : StreamBufReader) (w : StreamBufWriter),
      r.reset.pos = 0 ∧ r.reset.buf = r.buf ∧ r.reset.reset = r.reset ∧
      (r.buf.length < 2 ^ 63 → r.reset.bytes_remaining = r.buf.length) ∧
      w.reset.pos = 0 ∧ w.reset.buf = w.buf ∧ w.reset.reset = w.reset ∧
      (w.buf.length < 2 ^ 63 → w.reset.bytes_remaining = w.buf.length) := by
  intro r w
  refine ⟨rfl, rfl, rfl, fun hl => ?_, rfl, rfl, rfl, fun hl => ?_⟩
  · rw [bytes_remaining_eq_reader (s := r.reset) (Nat.zero_le _) hl]
    simp [StreamBufReader.reset]
  · rw [bytes_remaining_eq_writer (s := w.reset) (Nat.zero_le _) hl]
    simp [StreamBufWriter.reset]

/-- C8 witness: reset of a concrete mid-stream reader. -/
theorem claim_C8_witness :
    (StreamBufReader.mk 2 [7, 8, 9]).reset.bytes_remaining = 3 := by
  have h := (claim_C8_reset_idempotent (StreamBufReader.mk 2 [7, 8, 9])
    (StreamBufWriter.mk 0 [])).2.2.2.1 (by decide)
  simpa using h

/-- C10: `write` of an empty slice, `write_str` of an empty string and
`read` into an empty destination always return 0 — the same value these
operations return on insufficient-space failure — and change neither the
position nor the buffer, so for zero-length arguments the numeric return
value cannot distinguish success from failure. -/
theorem claim_C10_zero_length_returns_zero :
    ∀ (w : StreamBufWriter) (r : StreamBufReader),
      w.pos < USIZE → r.pos < USIZE →
      w.write [] = (0, w) ∧ w.write_str [] = (0, w) ∧ r.read [] = (0, [], r) := by
  intro w r hw hr
  refine ⟨?_, ?_, ?_⟩
  · simp only [StreamBufWriter.write]
    by_cases h : w.buf.length < w.pos
    · rw [is_available_false (by simp; omega) (by simp; omega)]
      simp
    · rw [is_available_true (by simp; omega) (by simp; omega)]
      simp [setBytes, Nat.mod_eq_of_lt hw]
  · simp only [StreamBufWriter.write_str]
    by_cases h : w.buf.length < w.pos
    · rw [is_available_false (by simp; omega) (by simp; omega)]
      simp
    · rw [is_available_true (by simp; omega) (by simp; omega)]
      simp [setBytes, Nat.mod_eq_of_lt hw]
  · simp only [StreamBufReader.read]
    by_cases h : r.buf.length < r.pos
    · rw [is_remaining_false (by simp; omega) (by simp; omega)]
      simp
    · rw [is_remaining_true (by simp; omega) (by simp; omega)]
      simp [Nat.mod_eq_of_lt hr]

/-- C10 witness: zero-length writes and reads on concrete cursors. -/
theorem claim_C10_witness :
    (StreamBufWriter.mk 1 [5]).write [] = (0, StreamBufWriter.mk 1 [5]) ∧
    (StreamBufReader.mk 1 [5]).read [] = (0, [], StreamBufReader.mk 1 [5]) := by
  have h := claim_C10_zero_length_returns_zero (StreamBufWriter.mk 1 [5])
    (StreamBufReader.mk 1 [5]) (by decide) (by decide)
  exact ⟨h.1, h.2.2⟩

/-- C7: absolute indexed access (`at`, `Index`, `IndexMut`) with
`index >= span.length` is the fatal trap (modelled by `none`), never a
sentinel; with `index < span.length` it reads (or writes) the byte at that
absolute offset, independently of the current position. -/
theorem claim_C7_indexed_access :
    ∀ (r : StreamBufReader) (w : StreamBufWriter) (i v p2 : Nat),
      (r.buf.length ≤ i → r.atIdx i = none ∧ r.index i = none) ∧
      (i < r.buf.length →
        r.atIdx i = some (r.buf.getD i 0) ∧ r.index i = some (r.buf.getD i 0)) ∧
      r.atIdx i = (StreamBufReader.mk p2 r.buf).atIdx i ∧
      (w.buf.length ≤ i →
        w.atIdx i = none ∧ w.index i = none ∧ w.index_set i v = none) ∧
      (i < w.buf.length →
        w.atIdx i = some (w.buf.getD i 0) ∧ w.index i = some (w.buf.getD i 0) ∧
          w.index_set i v = some ⟨w.pos, w.buf.set i v⟩) ∧
      w.atIdx i = (StreamBufWriter.mk p2 w.buf).atIdx i := by
  intro r w i v p2
  refine ⟨fun h => ?_, fun h => ?_, rfl, fun h => ?_, fun h => ?_, rfl⟩
  · constructor <;> simp [StreamBufReader.atIdx, StreamBufReader.index,
      List.getElem?_eq_none h]
  · constructor <;> simp [StreamBufReader.atIdx, StreamBufReader.index,
      List.getElem?_eq_getElem h, List.getD_eq_getElem?_getD,
      List.getElem?_eq_getElem h]
  · refine ⟨?_, ?_, ?_⟩
    · simp [StreamBufWriter.atIdx, List.getElem?_eq_none h]
    · simp [StreamBufWriter.index, List.getElem?_eq_none h]
    · unfold StreamBufWriter.index_set
      rw [if_neg (by omega)]
  · refine ⟨?_, ?_, ?_⟩
    · simp [StreamBufWriter.atIdx, List.getElem?_eq_getElem h,
        List.getD_eq_getElem?_getD]
    · simp [StreamBufWriter.index, List.getElem?_eq_getElem h,
        List.getD_eq_getElem?_getD]
    · unfold StreamBufWriter.index_set
      rw [if_pos h]

/-- C7 witness: indexed access on concrete cursors, in and out of bounds. -/
theorem claim_C7_witness :
    (StreamBufReader.mk 0 [4, 5]).atIdx 1 = some 5 ∧
    (StreamBufReader.mk 0 [4, 5]).atIdx 7 = none ∧
    (StreamBufWriter.mk 0 [4, 5]).index_set 1 9 =
      some (StreamBufWriter.mk 0 [4, 9]) := by
  refine ⟨?_, ?_, ?_⟩
  · have h := ((claim_C7_indexed_access (StreamBufReader.mk 0 [4, 5])
      (StreamBufWriter.mk 0 []) 1 0 0).2.1 (by decide)).1
    simpa using h
  · exact ((claim_C7_indexed_access (StreamBufReader.mk 0 [4, 5])
      (StreamBufWriter.mk 0 []) 7 0 0).1 (by decide)).1
  · have h := ((claim_C7_indexed_access (StreamBufReader.mk 0 [])
      (StreamBufWriter.mk 0 [4, 5]) 1 9 0).2.2.2.2.1 (by decide)).2.2
    simpa using h

set_option maxRecDepth 8192 in
/-- C4: converting a writer into a reader yields a reader over exactly the
written prefix (`buf[0 .. pos]`) with position 0; in realistic writer
states its `bytes_remaining` equals the writer's position; concretely,
writing 7 bytes (`u8`, `u16`, `u32`) into a 256-byte buffer gives a reader
with `bytes_remaining = 7` that reads back exactly the written values. -/
theorem claim_C4_writer_to_reader :
    ∀ (w : StreamBufWriter),
      (StreamBufReader.fromWriter w).pos = 0 ∧
      (StreamBufReader.fromWriter w).get_data = w.get_data_slice ∧
      (w.pos ≤ w.buf.length → w.buf.length < 2 ^ 63 →
        (StreamBufReader.fromWriter w).bytes_remaining = w.pos) ∧
      (StreamBufReader.fromWriter ((((StreamBufWriter.new
        (List.replicate 256 0)).write_u8 1).write_u16 2).write_u32 3)).bytes_remaining
          = 7 ∧
      ((StreamBufReader.fromWriter ((((StreamBufWriter.new
        (List.replicate 256 0)).write_u8 1).write_u16 2).write_u32 3)).read_u8).1 = 1 ∧
      (((StreamBufReader.fromWriter ((((StreamBufWriter.new
        (List.replicate 256 0)).write_u8 1).write_u16 2).write_u32 3)).read_u8).2.read_u16).1
          = 2 ∧
      ((((StreamBufReader.fromWriter ((((StreamBufWriter.new
        (List.replicate 256 0)).write_u8 1).write_u16 2).write_u32 3)).read_u8).2.read_u16).2.read_u32).1
          = 3 := by
  intro w
  refine ⟨rfl, rfl, fun h1 h2 => ?_, by decide, by decide, by decide, by decide⟩
  rw [bytes_remaining_eq_reader (Nat.zero_le _)
    (by simp [StreamBufReader.fromWriter, StreamBufReader.new]; omega)]
  simp [StreamBufReader.fromWriter, StreamBufReader.new]
  omega

/-- C4 witness: the scoping law on a concrete partially-filled writer. -/
theorem claim_C4_witness :
    (StreamBufReader.fromWriter (StreamBufWriter.mk 2 [3, 4, 5])).bytes_remaining = 2 := by
  have h := (claim_C4_writer_to_reader (StreamBufWriter.mk 2 [3, 4, 5])).2.2.1
    (by decide) (by decide)
  simpa using h

/-- C5: `write_str_with_zero_terminator` checks `text.length + 1` as one
combined length before writing anything; on success it writes the text
bytes followed by a single zero byte, advances by `text.length + 1` and
returns `text.length + 1`; on failure it returns 0 and leaves the state
unchanged — "Hello" into a 5-byte buffer fails entirely, into a 6-byte
buffer it writes `H,e,l,l,o,0` and returns 6. -/
theorem claim_C5_all_or_nothing_terminator :
    ∀ (p : Nat) (b src : List Nat),
      p ≤ b.length → b.length < 2 ^ 63 → src.length < 2 ^ 63 →
      (p + src.length + 1 ≤ b.length →
        (StreamBufWriter.mk p b).write_str_with_zero_terminator src =
          (src.length + 1, ⟨p + src.length + 1, setBytes b p (src ++ [0])⟩)) ∧
      (b.length < p + src.length + 1 →
        (StreamBufWriter.mk p b).write_str_with_zero_terminator src = (0, ⟨p, b⟩)) ∧
      (StreamBufWriter.new (List.replicate 5 0xFF)).write_str_with_zero_terminator
          [72, 101, 108, 108, 111] = (0, StreamBufWriter.new (List.replicate 5 0xFF)) ∧
      (StreamBufWriter.new (List.replicate 6 0xFF)).write_str_with_zero_terminator
          [72, 101, 108, 108, 111] = (6, StreamBufWriter.mk 6 [72, 101, 108, 108, 111, 0]) := by
  intro p b src hp hb hs
  exact ⟨fun h => write_str_with_zero_terminator_ok h hb,
    fun h => write_str_with_zero_terminator_fail h (by show p + src.length + 1 < USIZE; unfold USIZE; omega),
    by decide, by decide⟩

/-- C5 witness: terminator write on a concrete two-byte buffer. -/
theorem claim_C5_witness :
    (StreamBufWriter.mk 0 [9, 9]).write_str_with_zero_terminator [65] =
      (2, StreamBufWriter.mk 2 [65, 0]) := by
  have h := (claim_C5_all_or_nothing_terminator 0 [9, 9] [65] (by decide) (by decide)
    (by decide)).1 (by decide)
  simpa [setBytes] using h

/-- Reading back the two bytes just stored by `setBytes`. -/
theorem getD_setBytes2 (b : List Nat) (p x y : Nat) (h : p + 2 ≤ b.length) :
    (setBytes b p [x, y]).getD p 0 = x ∧
    (setBytes b p [x, y]).getD (p + 1) 0 = y := by
  simp only [setBytes]
  refine ⟨?_, ?_⟩
  · rw [getD_set_ne _ 0 (by omega), getD_set_self _ 0 (by omega)]
  · rw [getD_set_self _ 0 (by simp; omega)]

/-- Reading back the four bytes just stored by `setBytes`. -/
theorem getD_setBytes4 (b : List Nat) (p x y z u : Nat) (h : p + 4 ≤ b.length) :
    (setBytes b p [x, y, z, u]).getD p 0 = x ∧
    (setBytes b p [x, y, z, u]).getD (p + 1) 0 = y ∧
    (setBytes b p [x, y, z, u]).getD (p + 2) 0 = z ∧
    (setBytes b p [x, y, z, u]).getD (p + 3) 0 = u := by
  simp only [setBytes]
  rw [show p + 1 + 1 = p + 2 from by omega, show p + 2 + 1 = p + 3 from by omega]
  refine ⟨?_, ?_, ?_, ?_⟩
  · rw [getD_set_ne _ 0 (by omega), getD_set_ne _ 0 (by omega),
      getD_set_ne _ 0 (by omega), getD_set_self _ 0 (by omega)]
  · rw [getD_set_ne _ 0 (by omega), getD_set_ne _ 0 (by omega),
      getD_set_self _ 0 (by simp; omega)]
  · rw [getD_set_ne _ 0 (by omega), getD_set_self _ 0 (by simp; omega)]
  · rw [getD_set_self _ 0 (by simp; omega)]

/-- C1: for every `u8`/`u16`/`u32` value and every buffer position with
enough free space, writing with `write_u8` / `write_u16` / `write_u32`
(little-endian) / `write_u16_big_endian` / `write_u32_big_endian` and
reading back from the same offset with the matching read operation yields
the value exactly, over each type's full range; and writing `u32`
`0x0a1b2c3d` little-endian produces the bytes `[0x3d,0x2c,0x1b,0x0a]`. -/
theorem claim_C1_roundtrip :
    ∀ (p v : Nat) (b : List Nat), b.length < 2 ^ 63 →
      (v < 2 ^ 8 → p + 1 ≤ b.length →
        ((StreamBufReader.mk p ((StreamBufWriter.mk p b).write_u8 v).buf).read_u8).1
          = v) ∧
      (v < 2 ^ 16 → p + 2 ≤ b.length →
        ((StreamBufReader.mk p ((StreamBufWriter.mk p b).write_u16 v).buf).read_u16).1
          = v) ∧
      (v < 2 ^ 32 → p + 4 ≤ b.length →
        ((StreamBufReader.mk p ((StreamBufWriter.mk p b).write_u32 v).buf).read_u32).1
          = v) ∧
      (v < 2 ^ 16 → p + 2 ≤ b.length →
        ((StreamBufReader.mk p
          ((StreamBufWriter.mk p b).write_u16_big_endian v).buf).read_u16_big_endian).1
            = v) ∧
      (v < 2 ^ 32 → p + 4 ≤ b.length →
        ((StreamBufReader.mk p
          ((StreamBufWriter.mk p b).write_u32_big_endian v).buf).read_u32_big_endian).1
            = v) ∧
      ((StreamBufWriter.new [0, 0, 0, 0]).write_u32 0x0a1b2c3d).buf =
        [0x3d, 0x2c, 0x1b, 0x0a] := by
  intro p v b hb
  refine ⟨fun hv h => ?_, fun hv h => ?_, fun hv h => ?_, fun hv h => ?_,
    fun hv h => ?_, by decide⟩
  · rw [write_u8_ok h hb]
    rw [read_u8_ok (s := StreamBufReader.mk p (b.set p v)) (by simpa using h)
      (by simpa using hb)]
    show (b.set p v).getD p 0 = v
    exact getD_set_self v 0 (by omega)
  · rw [write_u16_ok h hb]
    rw [read_u16_ok
      (s := StreamBufReader.mk p ((b.set p (v % 2 ^ 8)).set (p + 1) (v / 2 ^ 8 % 2 ^ 8)))
      (by simpa using h) (by simpa using hb)]
    show u16_from_le_bytes
      (((b.set p (v % 2 ^ 8)).set (p + 1) (v / 2 ^ 8 % 2 ^ 8)).getD p 0)
      (((b.set p (v % 2 ^ 8)).set (p + 1) (v / 2 ^ 8 % 2 ^ 8)).getD (p + 1) 0) = v
    rw [getD_set_self _ 0 (by simp; omega), getD_set_ne _ 0 (by omega),
      getD_set_self _ 0 (by omega)]
    unfold u16_from_le_bytes
    omega
  · rw [write_u32_ok h hb]
    simp only [u32_to_le_bytes]
    obtain ⟨e0, e1, e2, e3⟩ := getD_setBytes4 b p (v % 2 ^ 8) (v / 2 ^ 8 % 2 ^ 8)
      (v / 2 ^ 16 % 2 ^ 8) (v / 2 ^ 24 % 2 ^ 8) (by omega)
    rw [read_u32_ok
      (s := StreamBufReader.mk p (setBytes b p
        [v % 2 ^ 8, v / 2 ^ 8 % 2 ^ 8, v / 2 ^ 16 % 2 ^ 8, v / 2 ^ 24 % 2 ^ 8]))
      (by simpa [setBytes_length] using h) (by simpa [setBytes_length] using hb)]
    simp only [e0, e1, e2, e3, u32_from_le_bytes]
    show v % 2 ^ 8 + v / 2 ^ 8 % 2 ^ 8 * 2 ^ 8 + v / 2 ^ 16 % 2 ^ 8 * 2 ^ 16 +
      v / 2 ^ 24 % 2 ^ 8 * 2 ^ 24 = v
    omega
  · rw [write_u16_big_endian_ok h hb]
    simp only [u16_to_be_bytes]
    obtain ⟨e0, e1⟩ := getD_setBytes2 b p (v / 2 ^ 8 % 2 ^ 8) (v % 2 ^ 8) (by omega)
    rw [read_u16_big_endian_ok
      (s := StreamBufReader.mk p (setBytes b p [v / 2 ^ 8 % 2 ^ 8, v % 2 ^ 8]))
      (by simpa [setBytes_length] using h) (by simpa [setBytes_length] using hb)]
    simp only [e0, e1, u16_from_be_bytes]
    show v / 2 ^ 8 % 2 ^ 8 * 2 ^ 8 + v % 2 ^ 8 = v
    omega
  · rw [write_u32_big_endian_ok h hb]
    simp only [u32_to_be_bytes]
    obtain ⟨e0, e1, e2, e3⟩ := getD_setBytes4 b p (v / 2 ^ 24 % 2 ^ 8)
      (v / 2 ^ 16 % 2 ^ 8) (v / 2 ^ 8 % 2 ^ 8) (v % 2 ^ 8) (by omega)
    rw [read_u32_big_endian_ok
      (s := StreamBufReader.mk p (setBytes b p
        [v / 2 ^ 24 % 2 ^ 8, v / 2 ^ 16 % 2 ^ 8, v / 2 ^ 8 % 2 ^ 8, v % 2 ^ 8]))
      (by simpa [setBytes_length] using h) (by simpa [setBytes_length] using hb)]
    simp only [e0, e1, e2, e3, u32_from_be_bytes]
    show v / 2 ^ 24 % 2 ^ 8 * 2 ^ 24 + v / 2 ^ 16 % 2 ^ 8 * 2 ^ 16 +
      v / 2 ^ 8 % 2 ^ 8 * 2 ^ 8 + v % 2 ^ 8 = v
    omega

/-- C1 witness: the `u32` little-endian round trip at `0x0a1b2c3d`. -/
theorem claim_C1_witness :
    ((StreamBufReader.mk 0
      ((StreamBufWriter.mk 0 [0, 0, 0, 0]).write_u32 0x0a1b2c3d).buf).read_u32).1
        = 0x0a1b2c3d := by
  exact (claim_C1_roundtrip 0 0x0a1b2c3d [0, 0, 0, 0] (by decide)).2.2.1
    (by decide) (by decide)

/-- C2: every fixed-width or multi-byte operation is all-or-nothing with a
silent sentinel. When the remaining bytes/capacity are insufficient, the
operation returns the sentinel (0 for integers, bit pattern 0 — that is
`0.0` — for `f32`, 0 bytes processed for slice/string operations), leaves
the position and buffer (and destination) unchanged, and — being modelled
by a total function returning a plain value — signals no error. When they
are sufficient, the operation completes fully (the whole value / slice /
string-plus-terminator is transferred, the slice operations return the
full length) and the new position is the old position plus the operation's
width; no partial copy ever occurs. Stated for every cursor state
satisfying the invariant `pos ≤ span.length` with spans and arguments
within the Rust slice bound `2 ^ 63`. -/
theorem claim_C2_silent_sentinel_policy :
    ∀ (r : StreamBufReader) (w : StreamBufWriter) (v : Nat) (src dst : List Nat),
      r.pos ≤ r.buf.length → r.buf.length < 2 ^ 63 →
      w.pos ≤ w.buf.length → w.buf.length < 2 ^ 63 →
      src.length < 2 ^ 63 → dst.length < 2 ^ 63 →
      ((r.buf.length < r.pos + 1 → r.read_u8 = (0, r)) ∧
        (r.pos + 1 ≤ r.buf.length →
          (r.read_u8).2 = StreamBufReader.mk (r.pos + 1) r.buf)) ∧
      ((r.buf.length < r.pos + 2 → r.read_u16 = (0, r)) ∧
        (r.pos + 2 ≤ r.buf.length →
          (r.read_u16).2 = StreamBufReader.mk (r.pos + 2) r.buf)) ∧
      ((r.buf.length < r.pos + 4 → r.read_u32 = (0, r)) ∧
        (r.pos + 4 ≤ r.buf.length →
          (r.read_u32).2 = StreamBufReader.mk (r.pos + 4) r.buf)) ∧
      ((r.buf.length < r.pos + 2 → r.read_u16_big_endian = (0, r)) ∧
        (r.pos + 2 ≤ r.buf.length →
          (r.read_u16_big_endian).2 = StreamBufReader.mk (r.pos + 2) r.buf)) ∧
      ((r.buf.length < r.pos + 4 → r.read_u32_big_endian = (0, r)) ∧
        (r.pos + 4 ≤ r.buf.length →
          (r.read_u32_big_endian).2 = StreamBufReader.mk (r.pos + 4) r.buf)) ∧
      ((r.buf.length < r.pos + 4 → r.read_f32 = (0, r)) ∧
        (r.pos + 4 ≤ r.buf.length →
          (r.read_f32).2 = StreamBufReader.mk (r.pos + 4) r.buf)) ∧
      ((r.buf.length < r.pos + dst.length → r.read dst = (0, dst, r)) ∧
        (r.pos + dst.length ≤ r.buf.length →
          r.read dst = (dst.length, (r.buf.drop r.pos).take dst.length,
            StreamBufReader.mk (r.pos + dst.length) r.buf))) ∧
      ((w.buf.length < w.pos + 1 → w.write_u8 v = w) ∧
        (w.pos + 1 ≤ w.buf.length →
          w.write_u8 v = StreamBufWriter.mk (w.pos + 1) (w.buf.set w.pos v))) ∧
      ((w.buf.length < w.pos + 2 → w.write_u16 v = w) ∧
        (w.pos + 2 ≤ w.buf.length →
          w.write_u16 v = StreamBufWriter.mk (w.pos + 2)
            ((w.buf.set w.pos (v % 2 ^ 8)).set (w.pos + 1) (v / 2 ^ 8 % 2 ^ 8)))) ∧
      ((w.buf.length < w.pos + 4 → w.write_u32 v = w) ∧
        (w.pos + 4 ≤ w.buf.length →
          w.write_u32 v = StreamBufWriter.mk (w.pos + 4)
            (setBytes w.buf w.pos (u32_to_le_bytes v)))) ∧
      ((w.buf.length < w.pos + 2 → w.write_u16_big_endian v = w) ∧
        (w.pos + 2 ≤ w.buf.length →
          w.write_u16_big_endian v = StreamBufWriter.mk (w.pos + 2)
            (setBytes w.buf w.pos (u16_to_be_bytes v)))) ∧
      ((w.buf.length < w.pos + 4 → w.write_u32_big_endian v = w) ∧
        (w.pos + 4 ≤ w.buf.length →
          w.write_u32_big_endian v = StreamBufWriter.mk (w.pos + 4)
            (setBytes w.buf w.pos (u32_to_be_bytes v)))) ∧
      ((w.buf.length < w.pos + 4 → w.write_f32 v = w) ∧
        (w.pos + 4 ≤ w.buf.length →
          w.write_f32 v = StreamBufWriter.mk (w.pos + 4)
            (setBytes w.buf w.pos (u32_to_le_bytes v)))) ∧
      ((w.buf.length < w.pos + src.length → w.write src = (0, w)) ∧
        (w.pos + src.length ≤ w.buf.length →
          w.write src = (src.length, StreamBufWriter.mk (w.pos + src.length)
            (setBytes w.buf w.pos src)))) ∧
      ((w.buf.length < w.pos + src.length → w.write_str src = (0, w)) ∧
        (w.pos + src.length ≤ w.buf.length →
          w.write_str src = (src.length, StreamBufWriter.mk (w.pos + src.length)
            (setBytes w.buf w.pos src)))) ∧
      ((w.buf.length < w.pos + src.length + 1 →
          w.write_str_with_zero_terminator src = (0, w)) ∧
        (w.pos + src.length + 1 ≤ w.buf.length →
          w.write_str_with_zero_terminator src = (src.length + 1,
            StreamBufWriter.mk (w.pos + src.length + 1)
              (setBytes w.buf w.pos (src ++ [0]))))) := by
  intro r w v src dst hrp hrb hwp hwb hsrc hdst
  refine ⟨⟨fun h => read_u8_fail h (small_lt_usize (by omega)),
      fun h => by rw [read_u8_ok h hrb]⟩,
    ⟨fun h => read_u16_fail h (small_lt_usize (by omega)),
      fun h => by rw [read_u16_ok h hrb]⟩,
    ⟨fun h => read_u32_fail h (small_lt_usize (by omega)),
      fun h => by rw [read_u32_ok h hrb]⟩,
    ⟨fun h => read_u16_big_endian_fail h (small_lt_usize (by omega)),
      fun h => by rw [read_u16_big_endian_ok h hrb]⟩,
    ⟨fun h => read_u32_big_endian_fail h (small_lt_usize (by omega)),
      fun h => by rw [read_u32_big_endian_ok h hrb]⟩,
    ⟨fun h => read_f32_fail h (small_lt_usize (by omega)),
      fun h => by rw [read_f32_ok h hrb]⟩,
    ⟨fun h => read_fail h (by unfold USIZE; omega),
      fun h => read_ok h hrb⟩,
    ⟨fun h => write_u8_fail h (small_lt_usize (by omega)),
      fun h => write_u8_ok h hwb⟩,
    ⟨fun h => write_u16_fail h (small_lt_usize (by omega)),
      fun h => write_u16_ok h hwb⟩,
    ⟨fun h => write_u32_fail h (small_lt_usize (by omega)),
      fun h => write_u32_ok h hwb⟩,
    ⟨fun h => write_u16_big_endian_fail h (small_lt_usize (by omega)),
      fun h => write_u16_big_endian_ok h hwb⟩,
    ⟨fun h => write_u32_big_endian_fail h (small_lt_usize (by omega)),
      fun h => write_u32_big_endian_ok h hwb⟩,
    ⟨fun h => write_f32_fail h (small_lt_usize (by omega)),
      fun h => write_f32_ok h hwb⟩,
    ⟨fun h => write_fail h (by unfold USIZE; omega),
      fun h => write_ok h hwb⟩,
    ⟨fun h => write_str_fail h (by unfold USIZE; omega),
      fun h => write_str_ok h hwb⟩,
    ⟨fun h => write_str_with_zero_terminator_fail h (by unfold USIZE; omega),
      fun h => write_str_with_zero_terminator_ok h hwb⟩⟩

/-- C2 witness: a failing `write_u32` on a full 2-byte writer (silent
no-op) and a succeeding `read_u16` (position advanced by the width). -/
theorem claim_C2_witness :
    (StreamBufWriter.mk 2 [1, 2]).write_u32 0xABCD1234 = StreamBufWriter.mk 2 [1, 2] ∧
    ((StreamBufReader.mk 0 [7, 8]).read_u16).2 = StreamBufReader.mk 2 [7, 8] := by
  have h1 := claim_C2_silent_sentinel_policy (StreamBufReader.mk 0 [7, 8])
    (StreamBufWriter.mk 2 [1, 2]) 0xABCD1234 [] [] (by decide) (by decide)
    (by decide) (by decide) (by decide) (by decide)
  exact ⟨h1.2.2.2.2.2.2.2.2.2.1.1 (by decide), h1.2.1.2 (by decide)⟩
